import Mathlib

/-!
Shallow embedding of `lib/ansible/modules/cloud/ovirt/ovirt_disks.py`
(the oVirt disk management module): the image-transfer engine
(`upload_disk_image`), the storage-placement reconciler
(`DisksModule.update_storage_domains`) and the VM-attachment branch of the
orchestration driver (`main`).

Remote interactions are modelled by explicit observation inputs:

* the successive phases returned by `transfer_service.get()` in each poll
  loop are a list of phases (an exhausted list means the loop is still
  polling, encoded as `none`);
* the HTTP status of the k-th chunk `PUT` is a function `Nat → Nat`;
* name resolution (`search_by_name`) is a function `String → Option String`
  from a name to the id of the found entity, `none` when nothing is found.

Failure sites of the source are mapped to constructors of `Err`:
`transferChunkError` is `Exception("Failed to upload disk image.")` raised
on a chunk status ≥ 400; `transferFailed` is the exception raised after
finalization when the terminal phase is a failure phase;
`referenceNotFound` is the failure surfaced when a looked-up name resolves
to nothing (for VM names the explicit `fail_json("VM don't exists ...")`,
for storage-domain names the attribute error raised by reading `.id` of the
`None` returned by `search_by_name`); `timeoutExceeded` is the timeout
failure of the bounded `wait` helper.
-/

set_option maxRecDepth 8192

deriving instance DecidableEq for Except

namespace OvirtDisks

/-- Phases of `otypes.ImageTransferPhase` used by the module (the oVirt SDK
image-transfer state machine). -/
inductive ImageTransferPhase
  | initializing
  | transferring
  | finalizing_success
  | finalizing_failure
  | finished_success
  | finished_failure
  | cancelled
  | unknown
  deriving DecidableEq, Repr

/-- Storage backing of a disk (`otypes.DiskStorageType`). -/
inductive DiskStorageType
  | image
  | lun
  | cinder
  deriving DecidableEq, Repr

/-- Failure sites of the embedded code (see the module docstring above for
the mapping to the exceptions of the source). -/
inductive Err
  | referenceNotFound
  | transferChunkError
  | transferFailed (phase : ImageTransferPhase)
  | timeoutExceeded
  deriving DecidableEq, Repr

/-- The fixed chunk size of the upload loop: `chunk_size = 1024 * 1024 * 8`
(8 MiB), line 266 of the source. -/
def chunk_size : Nat := 1024 * 1024 * 8

/-- One `PUT` request of the upload loop, recording its
`Content-Range: bytes <start>-<last>/<total>` header
(`"bytes %d-%d/%d" % (pos, min(pos + chunk_size, size) - 1, size)`,
line 270 of the source). -/
structure ChunkPut where
  start : Nat
  last : Nat
  total : Nat
  deriving DecidableEq, Repr

/-- Observable outcome of the chunked upload loop: how many
`transfer_service.extend()` keep-alive calls were made, the `PUT` requests
issued, and whether the loop completed or raised. -/
structure LoopResult where
  extendCalls : Nat
  puts : List ChunkPut
  outcome : Except Err Unit
  deriving DecidableEq, Repr

/-- The upload loop of `upload_disk_image` (source lines 265-280):

```
pos = 0
while pos < size:
    transfer_service.extend()
    upload_headers['Content-Range'] = "bytes %d-%d/%d" \
        % (pos, min(pos + chunk_size, size) - 1, size)
    proxy_connection.request('PUT', ..., disk.read(chunk_size), ...)
    r = proxy_connection.getresponse()
    if r.status >= 400:
        raise Exception("Failed to upload disk image.")
    pos += chunk_size
```

`st k` is the response status of the k-th `PUT`. The loop is defined by
structural recursion on a fuel argument; `uploadFrom` supplies the fuel
`size - pos`, which bounds the number of iterations because each iteration
advances `pos` by `chunk_size ≥ 1`, so the fuel never runs out while the
guard `pos < size` holds (the theorem `uploadFrom_unfold` below proves
that `uploadFrom` satisfies exactly the recurrence of the `while` loop). -/
def uploadGo (st : Nat → Nat) (size : Nat) : Nat → Nat → Nat → LoopResult
  | _pos, _k, 0 => ⟨0, [], Except.ok ()⟩
  | pos, k, fuel + 1 =>
    if pos < size then
      let put : ChunkPut := ⟨pos, min (pos + chunk_size) size - 1, size⟩
      if 400 ≤ st k then
        ⟨1, [put], Except.error Err.transferChunkError⟩
      else
        let r := uploadGo st size (pos + chunk_size) (k + 1) fuel
        ⟨r.extendCalls + 1, put :: r.puts, r.outcome⟩
    else
      ⟨0, [], Except.ok ()⟩

/-- The upload loop of `upload_disk_image`, entered at offset `pos` with
chunk index `k` (the loop of the source starts at `pos = 0`, `k = 0`).
See `uploadGo` for the body and `uploadFrom_unfold` for the while-loop
recurrence. -/
def uploadFrom (st : Nat → Nat) (size pos k : Nat) : LoopResult :=
  uploadGo st size pos k (size - pos)

/-- The init-wait loop of `upload_disk_image` (source lines 241-243):

```
while transfer.phase == otypes.ImageTransferPhase.INITIALIZING:
    time.sleep(module.params['poll_interval'])
    transfer = transfer_service.get()
```

`p` is the current `transfer.phase`, the list holds the phases returned by
the successive `transfer_service.get()` calls. The result is the phase the
loop exits with together with the number of sleep-and-poll iterations
performed; `none` means the observation list ran out while the phase was
still `INITIALIZING`, i.e. the loop is still polling. The loop takes no
timeout parameter. -/
def initWait : ImageTransferPhase → List ImageTransferPhase →
    Option (ImageTransferPhase × Nat)
  | ImageTransferPhase.initializing, [] => none
  | ImageTransferPhase.initializing, q :: rest =>
      (initWait q rest).map fun r => (r.1, r.2 + 1)
  | p, _ => some (p, 0)

/-- The membership test of the finalize-wait loop (source lines 283-286):
`transfer.phase in [TRANSFERRING, FINALIZING_SUCCESS]`. -/
def finalizeWaitSet (p : ImageTransferPhase) : Bool :=
  p == ImageTransferPhase.transferring || p == ImageTransferPhase.finalizing_success

/-- The finalize-wait loop of `upload_disk_image` (source lines 283-288),
polling while the phase is in `{TRANSFERRING, FINALIZING_SUCCESS}`; same
conventions as `initWait`. The loop takes no timeout parameter. -/
def finalizeWait (p : ImageTransferPhase) (gets : List ImageTransferPhase) :
    Option (ImageTransferPhase × Nat) :=
  if finalizeWaitSet p then
    match gets with
    | [] => none
    | q :: rest => (finalizeWait q rest).map fun r => (r.1, r.2 + 1)
  else some (p, 0)

/-- The failure-phase test applied after the finalize wait (source lines
289-294): `transfer.phase in [UNKNOWN, FINISHED_FAILURE,
FINALIZING_FAILURE, CANCELLED]`. -/
def failedPhase (p : ImageTransferPhase) : Bool :=
  p == ImageTransferPhase.unknown ||
  p == ImageTransferPhase.finished_failure ||
  p == ImageTransferPhase.finalizing_failure ||
  p == ImageTransferPhase.cancelled

/-- The `auth` suboptions read by the TLS setup of `upload_disk_image`
(source lines 252-257): `auth.get('insecure')` and `auth.get('ca_file')`.
`ca_file = none` stands for an absent (or empty, hence falsy) value. -/
structure AuthParams where
  insecure : Bool
  ca_file : Option String
  deriving DecidableEq, Repr

/-- How the TLS context of the proxy connection ends up configured. -/
inductive TlsTrust
  | insecureNoVerify
  | loadCaFile (path : String)
  | systemDefault
  deriving DecidableEq, Repr

/-- The TLS trust-store setup of `upload_disk_image` (source lines 251-257):

```
context = ssl.create_default_context()
auth = module.params['auth']
if auth.get('insecure'):
    context.check_hostname = False
    context.verify_mode = ssl.CERT_NONE
elif auth.get('ca_file'):
    context.load_verify_locations(cafile='ca.pem')
```

Note the literal filename `'ca.pem'` on the `load_verify_locations` call. -/
def tls_trust_setup (auth : AuthParams) : TlsTrust :=
  if auth.insecure then TlsTrust.insecureNoVerify
  else
    match auth.ca_file with
    | some _ => TlsTrust.loadCaFile "ca.pem"
    | none => TlsTrust.systemDefault

/-- Inputs of one `upload_disk_image` run. `phase0` is the phase of the
transfer returned by `transfers_service.add`; `initGets` and `finGets` are
the phases returned by `transfer_service.get()` in the two poll loops;
`size` is `os.path.getsize(module.params['image_path'])`; `status k` is
the response status of the k-th chunk `PUT`; `hasLogicalUnit` is the
truthiness of `module.params.get('logical_unit')`; `lunOkWithin` says
whether the disk reaches status `OK` within the caller-supplied timeout of
the final `wait` call. -/
structure UploadEnv where
  phase0 : ImageTransferPhase
  initGets : List ImageTransferPhase
  size : Nat
  status : Nat → Nat
  finGets : List ImageTransferPhase
  hasLogicalUnit : Bool
  lunOkWithin : Bool

/-- Observable outcome of one `upload_disk_image` run. `finalizeCalled`
records whether `transfer_service.finalize()` ran; `result` is the value
returned (`.ok true` mirrors the `return True` on line 307) or the
exception raised. -/
structure UploadOutcome where
  extendCalls : Nat
  puts : List ChunkPut
  finalizeCalled : Bool
  result : Except Err Bool
  deriving DecidableEq, Repr

/-- `upload_disk_image` (source lines 226-307). The body runs the init
wait and the chunk loop inside `try:`; the `finally:` block
unconditionally calls `transfer_service.finalize()`, runs the
finalize-wait loop, raises on a failure phase, and — when a logical unit
is configured — waits (bounded by the caller-supplied timeout; this `wait`
helper lives in `ansible.module_utils.ovirt`, outside the sources, and is
modelled from the spec as failing with `timeoutExceeded` when the disk
does not reach `OK` in time). A body exception propagates only when the
`finally:` block itself completes without raising; on a fully successful
run the function returns `True`. `none` means one of the two unbounded
poll loops is still polling when its observation list runs out. -/
def upload_disk_image (env : UploadEnv) : Option UploadOutcome :=
  match initWait env.phase0 env.initGets with
  | none => none
  | some pr =>
    let body := uploadFrom env.status env.size 0 0
    match finalizeWait pr.1 env.finGets with
    | none => none
    | some fr =>
      some
        { extendCalls := body.extendCalls
          puts := body.puts
          finalizeCalled := true
          result :=
            if failedPhase fr.1 then
              Except.error (Err.transferFailed fr.1)
            else if env.hasLogicalUnit && !env.lunOkWithin then
              Except.error Err.timeoutExceeded
            else
              match body.outcome with
              | Except.error e => Except.error e
              | Except.ok _ => Except.ok true }

/-- The terminal phase a run of `upload_disk_image` observes after the
finalize-wait loop, when both poll loops exit within their observation
lists. -/
def terminalPhase (env : UploadEnv) : Option ImageTransferPhase :=
  (initWait env.phase0 env.initGets).bind fun pr =>
    (finalizeWait pr.1 env.finGets).map fun fr => fr.1

/-- The combination `ret['changed'] = ret['changed'] or uploaded` performed
by the driver after an upload (source line 474). -/
def driverChangedAfterUpload (retChanged uploaded : Bool) : Bool :=
  retChanged || uploaded

/-- Kind of a storage-domain action dispatched through
`BaseModule.action`. -/
inductive ActKind
  | move
  | copy
  deriving DecidableEq, Repr

/-- One dispatched storage-domain action: its kind, the id of the target
storage domain, and whether a wait for disk status `OK` is attached
(`wait_condition=lambda d: d.status == otypes.DiskStatus.OK`). -/
structure ActionCall where
  kind : ActKind
  storageDomainId : String
  waitsForOk : Bool
  deriving DecidableEq, Repr

/-- The attributes of the live disk read by `update_storage_domains`:
`disk.storage_type` and `disk.storage_domains[0].id`. -/
structure Disk where
  storage_type : DiskStorageType
  primaryDomainId : String
  deriving DecidableEq, Repr

/-- The `storage_domains` loop of `DisksModule.update_storage_domains`
(source lines 372-382):

```
for sd in self._module.params['storage_domains']:
    new_disk_storage = search_by_name(sds_service, sd)
    changed = changed or self.action(
        action='copy',
        entity=disk,
        wait_condition=lambda disk: disk.status == otypes.DiskStatus.OK,
        storage_domain=otypes.StorageDomain(id=new_disk_storage.id),
    )['changed']
```

`search_by_name` runs for every entry, but Python `or` short-circuits:
once `changed` is truthy the `self.action(...)` call — including the
evaluation of its arguments, hence the read of `new_disk_storage.id` — is
skipped. When the arguments are evaluated and `search_by_name` returned
`None`, reading `.id` raises (modelled as `referenceNotFound`). The
`action` dispatch itself is `BaseModule.action` from
`ansible.module_utils.ovirt`, outside the sources, and is modelled from
the spec: the copy call passes no action condition, so the action is
issued unconditionally and reports a change. -/
def copyActions (resolve : String → Option String) :
    List String → Bool → Except Err (Bool × List ActionCall)
  | [], changed => Except.ok (changed, [])
  | sd :: rest, changed =>
    if changed then
      copyActions resolve rest true
    else
      match resolve sd with
      | none => Except.error Err.referenceNotFound
      | some sdid =>
        match copyActions resolve rest true with
        | Except.ok r => Except.ok (r.1, ⟨ActKind.copy, sdid, true⟩ :: r.2)
        | Except.error e => Except.error e

/-- `DisksModule.update_storage_domains` (source lines 348-384). Takes the
name-resolution function (`search_by_name` over the storage-domains
service), the `storage_domain` and `storage_domains` parameters (`none` /
`[]` stand for absent, hence falsy, values) and the live disk, and returns
the `changed` flag together with the storage-domain actions dispatched,
in order. Non-image disks return unchanged at once. The move branch
(source lines 359-370) resolves the single target name — reading `.id` of
a `None` result raises, modelled as `referenceNotFound` — and dispatches
`self.action(action='move', ...)` with
`action_condition=lambda d: new_disk_storage.id != d.storage_domains[0].id`
and `wait_condition=lambda d: d.status == otypes.DiskStatus.OK`; the
`BaseModule.action` dispatch is outside the sources and is modelled from
the spec: it issues the action exactly when the action condition holds on
the disk and reports `changed` accordingly. -/
def update_storage_domains (resolve : String → Option String)
    (storage_domain : Option String) (storage_domains : List String)
    (disk : Disk) : Except Err (Bool × List ActionCall) :=
  if disk.storage_type ≠ DiskStorageType.image then Except.ok (false, [])
  else
    match storage_domain with
    | none => copyActions resolve storage_domains false
    | some nm =>
      match resolve nm with
      | none => Except.error Err.referenceNotFound
      | some sdid =>
        if sdid ≠ disk.primaryDomainId then
          match copyActions resolve storage_domains true with
          | Except.ok r => Except.ok (r.1, ⟨ActKind.move, sdid, true⟩ :: r.2)
          | Except.error e => Except.error e
        else
          copyActions resolve storage_domains false

/-- The `state` parameter of the module
(`choices=['present', 'absent', 'attached', 'detached']`). -/
inductive DState
  | present
  | absent
  | attached
  | detached
  deriving DecidableEq, Repr

/-- A disk-attachment operation dispatched by the driver's VM branch:
`disk_attachments_module.create()` or `disk_attachments_module.remove()`. -/
inductive AttachOp
  | create
  | remove
  deriving DecidableEq, Repr

/-- Observable behaviour of one execution of the driver's VM branch:
whether the VM id was resolved from `vm_name` via `search_by_name`, and
the outcome (the attachment operation dispatched, if any, or the failure
raised). -/
structure VmBranchRun where
  resolvedByName : Bool
  outcome : Except Err (Option AttachOp)
  deriving DecidableEq, Repr

/-- The VM-attachment branch of `main` (source lines 479-510):

```
if module.params.get('vm_id') is not None or \
        module.params.get('vm_name') is not None and state != 'absent':
    vm_id = module.params['vm_id']
    if vm_id is None:
        vm_id = getattr(search_by_name(vms_service, module.params['vm_name']),
                        'id', None)
    if vm_id is None:
        module.fail_json(msg="VM don't exists, please create it first.")
    ...
    if state == 'present' or state == 'attached':
        ret = disk_attachments_module.create()
        ...
    elif state == 'detached':
        ret = disk_attachments_module.remove()
```

Python parses the guard as
`vm_id is not None or (vm_name is not None and state != 'absent')`.
The result is `none` when the guard is false (the branch is skipped). -/
def vm_branch (resolveVmName : String → Option String)
    (vm_id vm_name : Option String) (state : DState) : Option VmBranchRun :=
  if vm_id.isSome || (vm_name.isSome && !(state == DState.absent)) then
    let vid : Option String :=
      match vm_id with
      | some i => some i
      | none => vm_name.bind resolveVmName
    some
      { resolvedByName := vm_id.isNone
        outcome :=
          match vid with
          | none => Except.error Err.referenceNotFound
          | some _ =>
            Except.ok
              (if state = DState.present ∨ state = DState.attached then
                some AttachOp.create
              else if state = DState.detached then some AttachOp.remove
              else none) }
  else none

/-- The fuel argument of `uploadGo` does not matter as long as it covers
`size - pos`, which bounds the remaining iteration count. -/
lemma uploadGo_fuel_congr (st : Nat → Nat) (size : Nat) :
    ∀ f1 f2 pos k, size - pos ≤ f1 → size - pos ≤ f2 →
      uploadGo st size pos k f1 = uploadGo st size pos k f2 := by
  intro f1
  induction f1 with
  | zero =>
    intro f2 pos k h1 h2
    have hps : ¬ pos < size := by omega
    cases f2 with
    | zero => rfl
    | succ m => simp [uploadGo, hps]
  | succ n ih =>
    intro f2 pos k h1 h2
    by_cases hps : pos < size
    · cases f2 with
      | zero => omega
      | succ m =>
        have hC : 0 < chunk_size := by norm_num [chunk_size]
        have hrec := ih m (pos + chunk_size) (k + 1) (by omega) (by omega)
        simp [uploadGo, hps, hrec]
    · cases f2 with
      | zero => simp [uploadGo, hps]
      | succ m => simp [uploadGo, hps]

/-- `uploadFrom` satisfies exactly the recurrence of the `while` loop of
the source: if `pos < size` an extend-and-PUT iteration happens (aborting
on a status ≥ 400, otherwise continuing at `pos + chunk_size` with the
next chunk index), and otherwise the loop exits cleanly. -/
theorem uploadFrom_unfold (st : Nat → Nat) (size pos k : Nat) :
    uploadFrom st size pos k =
      if pos < size then
        if 400 ≤ st k then
          ⟨1, [⟨pos, min (pos + chunk_size) size - 1, size⟩],
            Except.error Err.transferChunkError⟩
        else
          ⟨(uploadFrom st size (pos + chunk_size) (k + 1)).extendCalls + 1,
            ⟨pos, min (pos + chunk_size) size - 1, size⟩ ::
              (uploadFrom st size (pos + chunk_size) (k + 1)).puts,
            (uploadFrom st size (pos + chunk_size) (k + 1)).outcome⟩
      else ⟨0, [], Except.ok ()⟩ := by
  by_cases hps : pos < size
  · have hC : 0 < chunk_size := by norm_num [chunk_size]
    have hfuel : size - pos = (size - pos - 1) + 1 := by omega
    have hcongr := uploadGo_fuel_congr st size (size - pos - 1)
      (size - (pos + chunk_size)) (pos + chunk_size) (k + 1) (by omega) (by omega)
    rw [uploadFrom, hfuel]
    simp only [uploadGo, hps, if_true]
    rw [hcongr]
    simp [uploadFrom, hps]
  · simp only [uploadFrom, Nat.sub_eq_zero_of_le (by omega : size ≤ pos)]
    simp [uploadGo, hps]

/-- The chunk size as a numeral, for arithmetic automation. -/
lemma chunk_size_eq : chunk_size = 8388608 := by norm_num [chunk_size]

/-- Ceiling-division step: with at least one byte remaining, the chunk
count is one more than the chunk count after consuming one chunk. -/
lemma ceil_step (m : Nat) (hm : 1 ≤ m) :
    (m + chunk_size - 1) / chunk_size =
      (m - chunk_size + chunk_size - 1) / chunk_size + 1 := by
  simp only [chunk_size_eq]
  omega

/-- Splitting a mapped `List.range (n + 1)` into its head and a shifted
tail. -/
lemma range_map_cons {α : Type} (n : Nat) (f : Nat → α) :
    (List.range (n + 1)).map f = f 0 :: (List.range n).map fun i => f (i + 1) := by
  rw [List.range_succ_eq_map]
  simp [List.map_map, Function.comp, Nat.succ_eq_add_one]

/-- When every chunk status is below 400, the upload loop entered at
offset `pos` issues one PUT per remaining chunk, carrying the ranges of
the source's Content-Range header, makes one extend call per PUT, and
completes cleanly. -/
lemma uploadGo_all_ok (st : Nat → Nat) (size : Nat) (hok : ∀ k, st k < 400) :
    ∀ fuel pos k, size - pos ≤ fuel →
      uploadGo st size pos k fuel =
        { extendCalls := (size - pos + chunk_size - 1) / chunk_size
          puts := (List.range ((size - pos + chunk_size - 1) / chunk_size)).map
            (fun i => ⟨pos + i * chunk_size, min (pos + (i + 1) * chunk_size) size - 1, size⟩)
          outcome := Except.ok () } := by
  intro fuel
  induction fuel with
  | zero =>
    intro pos k h
    have h0 : size - pos = 0 := by omega
    rw [h0]
    have hz : (chunk_size - 1) / chunk_size = 0 := by
      simp [chunk_size_eq]
    simp [uploadGo, hz]
  | succ n ih =>
    intro pos k h
    by_cases hps : pos < size
    · have hC : 0 < chunk_size := by rw [chunk_size_eq]; omega
      have hst : ¬ 400 ≤ st k := by have := hok k; omega
      have hcnt := ceil_step (size - pos) (by omega)
      have hsub : size - pos - chunk_size = size - (pos + chunk_size) := by omega
      rw [hsub] at hcnt
      have hrec := ih (pos + chunk_size) (k + 1) (by omega)
      simp only [uploadGo, hps, if_true, hst, if_false, hrec]
      rw [hcnt, range_map_cons]
      simp only [LoopResult.mk.injEq, true_and, and_true]
      simp only [List.cons.injEq]
      constructor
      · simp
      · apply List.map_congr_left
        intro i _
        have e1 : pos + chunk_size + i * chunk_size = pos + (i + 1) * chunk_size := by ring
        have e2 : pos + chunk_size + (i + 1) * chunk_size = pos + (i + 1 + 1) * chunk_size := by
          ring
        rw [e1, e2]
    · have h0 : size - pos = 0 := by omega
      rw [h0]
      have hz : (chunk_size - 1) / chunk_size = 0 := by
        simp [chunk_size_eq]
      simp [uploadGo, hps, hz]

/-- When chunks before `j` succeed, chunk `j` gets a status ≥ 400 and
chunk `j` is still within the file, the loop entered at chunk `i ≤ j`
issues exactly the chunks `i..j` (that is `j - i + 1` PUTs) and aborts
with the chunk error. -/
lemma uploadGo_abort (st : Nat → Nat) (size j : Nat)
    (hj : 400 ≤ st j) (hlt : ∀ i, i < j → st i < 400)
    (hjS : j * chunk_size < size) :
    ∀ d i fuel, j - i = d → i ≤ j → size - i * chunk_size ≤ fuel →
      (uploadGo st size (i * chunk_size) i fuel).puts.length = j - i + 1 ∧
      (uploadGo st size (i * chunk_size) i fuel).outcome =
        Except.error Err.transferChunkError := by
  intro d
  induction d with
  | zero =>
    intro i fuel h hij hfuel
    have hi : i = j := by omega
    subst hi
    have hps : i * chunk_size < size := hjS
    cases fuel with
    | zero => omega
    | succ m => simp [uploadGo, hps, hj]
  | succ n ih =>
    intro i fuel h hij hfuel
    have hij2 : i < j := by omega
    have hC : 0 < chunk_size := by rw [chunk_size_eq]; omega
    have hps : i * chunk_size < size := by
      have hmul : i * chunk_size ≤ j * chunk_size :=
        Nat.mul_le_mul_right _ (by omega)
      omega
    have hst : ¬ 400 ≤ st i := by have := hlt i hij2; omega
    cases fuel with
    | zero => omega
    | succ m =>
      have harg : i * chunk_size + chunk_size = (i + 1) * chunk_size := by ring
      have hfm : size - (i + 1) * chunk_size ≤ m := by rw [← harg]; omega
      have hrec := ih (i + 1) m (by omega) (by omega) hfm
      simp only [uploadGo, hps, if_true, hst, if_false]
      rw [harg]
      constructor
      · simp only [List.length_cons, hrec.1]
        omega
      · exact hrec.2

/-- The only exception the upload loop raises is the chunk error. -/
lemma uploadGo_error_chunk (st : Nat → Nat) (size : Nat) :
    ∀ fuel pos k e, (uploadGo st size pos k fuel).outcome = Except.error e →
      e = Err.transferChunkError := by
  intro fuel
  induction fuel with
  | zero => intro pos k e h; simp [uploadGo] at h
  | succ n ih =>
    intro pos k e h
    by_cases hps : pos < size
    · by_cases hst : 400 ≤ st k
      · simp [uploadGo, hps, hst] at h
        exact h.symm
      · simp only [uploadGo, hps, if_true, hst, if_false] at h
        exact ih _ _ _ h
    · simp [uploadGo, hps] at h

/-- Any phase other than `INITIALIZING` exits the init-wait loop at once,
with no poll performed. -/
lemma initWait_exit (p : ImageTransferPhase)
    (hp : p ≠ ImageTransferPhase.initializing)
    (gets : List ImageTransferPhase) : initWait p gets = some (p, 0) := by
  cases p <;> first | exact absurd rfl hp | (cases gets <;> rfl)

/-- After `k` consecutive `INITIALIZING` observations followed by a
different phase, the init-wait loop exits with that phase after exactly
`k + 1` sleep-and-poll iterations — however large `k` is. -/
lemma initWait_replicate (k : Nat) (p : ImageTransferPhase)
    (hp : p ≠ ImageTransferPhase.initializing) :
    initWait ImageTransferPhase.initializing
        (List.replicate k ImageTransferPhase.initializing ++ [p]) =
      some (p, k + 1) := by
  induction k with
  | zero => simp [initWait, initWait_exit p hp]
  | succ n ih => simp [List.replicate_succ, initWait, ih]

/-- Any phase outside `{TRANSFERRING, FINALIZING_SUCCESS}` exits the
finalize-wait loop at once, with no poll performed. -/
lemma finalizeWait_exit (p : ImageTransferPhase)
    (hp : finalizeWaitSet p = false)
    (gets : List ImageTransferPhase) : finalizeWait p gets = some (p, 0) := by
  unfold finalizeWait
  rw [hp]
  simp

/-- After `k` consecutive `TRANSFERRING` observations followed by a phase
outside the waiting set, the finalize-wait loop exits with that phase
after exactly `k + 1` sleep-and-poll iterations — however large `k` is. -/
lemma finalizeWait_replicate (k : Nat) (p : ImageTransferPhase)
    (hp : finalizeWaitSet p = false) :
    finalizeWait ImageTransferPhase.transferring
        (List.replicate k ImageTransferPhase.transferring ++ [p]) =
      some (p, k + 1) := by
  have hT : finalizeWaitSet ImageTransferPhase.transferring = true := rfl
  induction k with
  | zero =>
    rw [List.replicate_zero, List.nil_append, finalizeWait, hT]
    simp [finalizeWait_exit p hp]
  | succ n ih =>
    rw [List.replicate_succ, List.cons_append, finalizeWait, hT]
    simp [ih]

/-- Canonical form of a completed `upload_disk_image` run, given exits of
the two poll loops. -/
lemma upload_disk_image_eq (env : UploadEnv) (pr fr : ImageTransferPhase × Nat)
    (h1 : initWait env.phase0 env.initGets = some pr)
    (h2 : finalizeWait pr.1 env.finGets = some fr) :
    upload_disk_image env = some
      { extendCalls := (uploadFrom env.status env.size 0 0).extendCalls
        puts := (uploadFrom env.status env.size 0 0).puts
        finalizeCalled := true
        result :=
          if failedPhase fr.1 then Except.error (Err.transferFailed fr.1)
          else if env.hasLogicalUnit && !env.lunOkWithin then
            Except.error Err.timeoutExceeded
          else
            match (uploadFrom env.status env.size 0 0).outcome with
            | Except.error e => Except.error e
            | Except.ok _ => Except.ok true } := by
  simp [upload_disk_image, h1, h2, uploadFrom]

/-- A completed `upload_disk_image` run pins down exits of both poll
loops. -/
lemma upload_disk_image_some (env : UploadEnv) (o : UploadOutcome)
    (h : upload_disk_image env = some o) :
    ∃ pr fr, initWait env.phase0 env.initGets = some pr ∧
      finalizeWait pr.1 env.finGets = some fr := by
  unfold upload_disk_image at h
  cases hi : initWait env.phase0 env.initGets with
  | none => rw [hi] at h; simp at h
  | some pr =>
    rw [hi] at h
    cases hf : finalizeWait pr.1 env.finGets with
    | none => simp [hf] at h
    | some fr => exact ⟨pr, fr, rfl, hf⟩

/-- The terminal phase observed by a run is the phase the finalize-wait
loop exited with. -/
lemma terminalPhase_fr (env : UploadEnv) (pr fr : ImageTransferPhase × Nat)
    (q : ImageTransferPhase)
    (h1 : initWait env.phase0 env.initGets = some pr)
    (h2 : finalizeWait pr.1 env.finGets = some fr)
    (hq : terminalPhase env = some q) : fr.1 = q := by
  unfold terminalPhase at hq
  rw [h1] at hq
  simp [h2] at hq
  exact hq

/-- C1: the claim says that with `insecure` unset and a `ca_file`
supplied, the trust store is loaded from the caller-supplied path. The
code instead calls `context.load_verify_locations(cafile='ca.pem')` with
the hardcoded literal `'ca.pem'`: for the caller-supplied path
`/etc/pki/ovirt-ca.pem`, the loaded file is `ca.pem`, not the supplied
path — contradicting the module's own documentation, which tells the user
to provide the CA via the `ca_file` parameter. -/
theorem c1_ca_file_hardcoded :
    tls_trust_setup { insecure := false, ca_file := some "/etc/pki/ovirt-ca.pem" } =
      TlsTrust.loadCaFile "ca.pem" ∧
    tls_trust_setup { insecure := false, ca_file := some "/etc/pki/ovirt-ca.pem" } ≠
      TlsTrust.loadCaFile "/etc/pki/ovirt-ca.pem" := by
  constructor
  · rfl
  · decide

/-- C3: the claim says `update_storage_domains` with N names in
`storage_domains` issues exactly N copy actions on every call, regardless
of whether an earlier action in the same call reported a change. Because
`changed = changed or self.action(...)` short-circuits, this fails: with
a move already reported (first conjunct) zero of the two declared copies
are issued, and with no move (second conjunct) only the first of the two
declared copies is issued, the first copy's `changed = True` suppressing
the second. -/
theorem c3_copy_actions_short_circuit :
    update_storage_domains
        (fun s => if s = "sdM" then some "idM" else if s = "sd1" then some "id1"
          else if s = "sd2" then some "id2" else none)
        (some "sdM") ["sd1", "sd2"]
        { storage_type := DiskStorageType.image, primaryDomainId := "id0" } =
      Except.ok (true, [⟨ActKind.move, "idM", true⟩]) ∧
    update_storage_domains
        (fun s => if s = "sd1" then some "id1" else if s = "sd2" then some "id2" else none)
        none ["sd1", "sd2"]
        { storage_type := DiskStorageType.image, primaryDomainId := "id0" } =
      Except.ok (true, [⟨ActKind.copy, "id1", true⟩]) := by
  constructor
  · decide
  · decide

/-- C4 (counterexample): the claim says that with state `absent` the
VM-attachment branch is not executed regardless of whether the VM is
referenced by `vm_id` or by `vm_name`. Because the guard parses as
`vm_id is not None or (vm_name is not None and state != 'absent')`, a set
`vm_id` takes the branch even when state is `absent`: the branch runs
(result is not `none`), although it then dispatches no attachment
operation. -/
theorem c4_vm_branch_runs_for_vm_id_absent :
    vm_branch (fun _ => none) (some "vm-1") none DState.absent =
      some { resolvedByName := false, outcome := Except.ok none } ∧
    vm_branch (fun _ => none) (some "vm-1") none DState.absent ≠ none := by
  constructor
  · decide
  · decide

/-- C4 (amended): with state `absent`, the VM-attachment branch is skipped
when the VM is referenced only by `vm_name`; when `vm_id` is set the
branch guard holds and the branch runs, but it resolves no name and
neither creates nor removes any attachment. -/
theorem c4_absent_attachment_behavior :
    (∀ (f : String → Option String) (n : String),
        vm_branch f none (some n) DState.absent = none) ∧
    (∀ (f : String → Option String) (i : String) (vn : Option String),
        vm_branch f (some i) vn DState.absent =
          some { resolvedByName := false, outcome := Except.ok none }) := by
  constructor
  · intro f n
    simp [vm_branch]
  · intro f i vn
    simp [vm_branch]

/-- C8: with a single `storage_domain` declared, a LUN-backed disk
(storage type not IMAGE) gets no action and reports unchanged; an
image-backed disk on the resolved target domain already gets no move and
reports unchanged; and an image-backed disk on a different domain gets
exactly one move action, with the wait for disk status `OK` attached. -/
theorem c8_single_storage_domain :
    (∀ (resolve : String → Option String) (sdo : Option String)
        (sds : List String) (d : Disk),
        d.storage_type ≠ DiskStorageType.image →
        update_storage_domains resolve sdo sds d = Except.ok (false, [])) ∧
    (∀ (resolve : String → Option String) (nm sdid : String) (d : Disk),
        d.storage_type = DiskStorageType.image →
        resolve nm = some sdid → sdid = d.primaryDomainId →
        update_storage_domains resolve (some nm) [] d = Except.ok (false, [])) ∧
    (∀ (resolve : String → Option String) (nm sdid : String) (d : Disk),
        d.storage_type = DiskStorageType.image →
        resolve nm = some sdid → sdid ≠ d.primaryDomainId →
        update_storage_domains resolve (some nm) [] d =
          Except.ok (true, [⟨ActKind.move, sdid, true⟩])) := by
  refine ⟨?_, ?_, ?_⟩
  · intro resolve sdo sds d hd
    simp [update_storage_domains, hd]
  · intro resolve nm sdid d hd hres heq
    simp [update_storage_domains, hd, hres, heq, copyActions]
  · intro resolve nm sdid d hd hres hne
    simp [update_storage_domains, hd, hres, hne, copyActions]

/-- Witness for `c8_single_storage_domain`: a LUN-backed disk, an
image-backed disk already on the target, and an image-backed disk on a
different domain. -/
theorem c8_single_storage_domain_witness :
    ((⟨DiskStorageType.lun, "id0"⟩ : Disk).storage_type ≠ DiskStorageType.image ∧
      update_storage_domains (fun _ => some "idT") (some "data") []
        ⟨DiskStorageType.lun, "id0"⟩ = Except.ok (false, [])) ∧
    ((fun _ : String => some "id0") "data" = some "id0" ∧
      update_storage_domains (fun _ => some "id0") (some "data") []
        ⟨DiskStorageType.image, "id0"⟩ = Except.ok (false, [])) ∧
    ((fun _ : String => some "idT") "data" = some "idT" ∧
      update_storage_domains (fun _ => some "idT") (some "data") []
        ⟨DiskStorageType.image, "id0"⟩ =
        Except.ok (true, [⟨ActKind.move, "idT", true⟩])) :=
  ⟨⟨by decide, c8_single_storage_domain.1 (fun _ => some "idT") (some "data") []
      ⟨DiskStorageType.lun, "id0"⟩ (by decide)⟩,
    ⟨rfl, c8_single_storage_domain.2.1 (fun _ => some "id0") "data" "id0"
      ⟨DiskStorageType.image, "id0"⟩ rfl rfl rfl⟩,
    ⟨rfl, c8_single_storage_domain.2.2 (fun _ => some "idT") "data" "idT"
      ⟨DiskStorageType.image, "id0"⟩ rfl rfl (by decide)⟩⟩

/-- C9 (counterexample): the claim says every declared storage-domain name
that does not resolve makes `update_storage_domains` fail. With
`storage_domains = ["sd1", "sdBad"]` where only `sd1` resolves, the first
copy reports a change, so the `or` short-circuit skips the action call
for `sdBad` — its resolution result is never read — and the call returns
successfully instead of failing. -/
theorem c9_unresolved_name_skipped_after_change :
    (fun s => if s = "sd1" then some "id1" else (none : Option String)) "sdBad" = none ∧
    update_storage_domains (fun s => if s = "sd1" then some "id1" else none)
        none ["sd1", "sdBad"]
        { storage_type := DiskStorageType.image, primaryDomainId := "id0" } =
      Except.ok (true, [⟨ActKind.copy, "id1", true⟩]) := by
  constructor
  · decide
  · decide

/-- C9 (amended): an unresolvable storage-domain name makes
`update_storage_domains` fail (for an image-backed disk) exactly when its
resolution result is read: always in the single `storage_domain` move
branch, and in the `storage_domains` copy loop only while no change has
been recorded yet — once `changed` is true the remaining entries are
skipped without failure. An unresolvable `vm_name` makes the driver's VM
branch fail before any attachment operation is dispatched. -/
theorem c9_reference_not_found_cases :
    (∀ (resolve : String → Option String) (sds : List String) (d : Disk) (nm : String),
        d.storage_type = DiskStorageType.image → resolve nm = none →
        update_storage_domains resolve (some nm) sds d =
          Except.error Err.referenceNotFound) ∧
    (∀ (resolve : String → Option String) (sd : String) (rest : List String) (d : Disk),
        d.storage_type = DiskStorageType.image → resolve sd = none →
        update_storage_domains resolve none (sd :: rest) d =
          Except.error Err.referenceNotFound) ∧
    (∀ (f : String → Option String) (n : String) (st : DState),
        st ≠ DState.absent → f n = none →
        vm_branch f none (some n) st =
          some { resolvedByName := true, outcome := Except.error Err.referenceNotFound }) := by
  refine ⟨?_, ?_, ?_⟩
  · intro resolve sds d nm hd hres
    simp [update_storage_domains, hd, hres]
  · intro resolve sd rest d hd hres
    simp [update_storage_domains, hd, copyActions, hres]
  · intro f n st hst hres
    simp [vm_branch, hst, hres]

/-- Witness for `c9_reference_not_found_cases`: an unresolvable name in
the move branch, in the head of the copy loop, and an unresolvable VM
name with state `present`. -/
theorem c9_reference_not_found_cases_witness :
    ((⟨DiskStorageType.image, "id0"⟩ : Disk).storage_type = DiskStorageType.image ∧
      (fun _ : String => (none : Option String)) "ghost" = none ∧
      update_storage_domains (fun _ => none) (some "ghost") []
        ⟨DiskStorageType.image, "id0"⟩ = Except.error Err.referenceNotFound) ∧
    (update_storage_domains (fun _ => none) none ["ghost"]
        ⟨DiskStorageType.image, "id0"⟩ = Except.error Err.referenceNotFound) ∧
    (DState.present ≠ DState.absent ∧
      vm_branch (fun _ => none) none (some "ghostvm") DState.present =
        some { resolvedByName := true, outcome := Except.error Err.referenceNotFound }) :=
  ⟨⟨rfl, rfl, c9_reference_not_found_cases.1 (fun _ => none) [] ⟨DiskStorageType.image, "id0"⟩
      "ghost" rfl rfl⟩,
    c9_reference_not_found_cases.2.1 (fun _ => none) "ghost" [] ⟨DiskStorageType.image, "id0"⟩
      rfl rfl,
    ⟨by decide, c9_reference_not_found_cases.2.2 (fun _ => none) "ghostvm" DState.present
      (by decide) rfl⟩⟩

/-- C5: for a source file of `S > 0` bytes and the fixed 8 MiB chunk
size, the upload loop issues exactly `⌈S / chunk_size⌉` PUT requests, the
k-th carrying `Content-Range: bytes k*chunk_size-(min((k+1)*chunk_size,
S) - 1)/S`, each preceded by one extend call, and the final request's
range end equals `S - 1`. -/
theorem c5_upload_chunking (S : Nat) (st : Nat → Nat)
    (hS : 0 < S) (hok : ∀ k, st k < 400) :
    (uploadFrom st S 0 0).puts =
      (List.range ((S + chunk_size - 1) / chunk_size)).map
        (fun i => ⟨i * chunk_size, min ((i + 1) * chunk_size) S - 1, S⟩) ∧
    (uploadFrom st S 0 0).extendCalls = (uploadFrom st S 0 0).puts.length ∧
    (uploadFrom st S 0 0).puts.length = (S + chunk_size - 1) / chunk_size ∧
    ((uploadFrom st S 0 0).puts.getLast?).map ChunkPut.last = some (S - 1) := by
  have hmain := uploadGo_all_ok st S hok (S - 0) 0 0 (le_refl _)
  have hres : uploadFrom st S 0 0 =
      { extendCalls := (S + chunk_size - 1) / chunk_size
        puts := (List.range ((S + chunk_size - 1) / chunk_size)).map
          (fun i => ⟨i * chunk_size, min ((i + 1) * chunk_size) S - 1, S⟩)
        outcome := Except.ok () } := by
    unfold uploadFrom
    rw [hmain]
    simp
  refine ⟨by rw [hres], by rw [hres]; simp, by rw [hres]; simp, ?_⟩
  rw [hres]
  obtain ⟨n, hn⟩ : ∃ n, (S + chunk_size - 1) / chunk_size = n + 1 := by
    have h1 : 1 ≤ (S + chunk_size - 1) / chunk_size := by
      simp only [chunk_size_eq]; omega
    exact ⟨(S + chunk_size - 1) / chunk_size - 1, by omega⟩
  rw [hn, List.range_succ, List.map_append]
  simp only [List.map_cons, List.map_nil, List.getLast?_concat]
  have hle : S ≤ (n + 1) * chunk_size := by
    have h2 : S ≤ ((S + chunk_size - 1) / chunk_size) * chunk_size := by
      simp only [chunk_size_eq]; omega
    rw [hn] at h2
    exact h2
  have hmin : min ((n + 1) * chunk_size) S = S := by omega
  simp [hmin]

/-- Witness for `c5_upload_chunking` at `S = 1` with all statuses 200. -/
theorem c5_upload_chunking_witness :
    (0 : Nat) < 1 ∧ (∀ k : Nat, (fun _ : Nat => 200) k < 400) ∧
    ((uploadFrom (fun _ : Nat => 200) 1 0 0).puts =
        (List.range ((1 + chunk_size - 1) / chunk_size)).map
          (fun i => ⟨i * chunk_size, min ((i + 1) * chunk_size) 1 - 1, 1⟩) ∧
      (uploadFrom (fun _ : Nat => 200) 1 0 0).extendCalls =
        (uploadFrom (fun _ : Nat => 200) 1 0 0).puts.length ∧
      (uploadFrom (fun _ : Nat => 200) 1 0 0).puts.length =
        (1 + chunk_size - 1) / chunk_size ∧
      ((uploadFrom (fun _ : Nat => 200) 1 0 0).puts.getLast?).map ChunkPut.last =
        some (1 - 1)) :=
  ⟨Nat.one_pos, fun _ => by norm_num,
    c5_upload_chunking 1 (fun _ => 200) Nat.one_pos (fun _ => by norm_num)⟩

/-- C6: a chunk PUT answered with a status ≥ 400 aborts the transfer
immediately — exactly the chunks up to and including the failing one are
sent, none after — and finalize still runs: every completed
`upload_disk_image` run, whatever its exit path (success, chunk error, or
raised exception), has performed the finalize call. -/
theorem c6_abort_and_finalize :
    (∀ (S j : Nat) (st : Nat → Nat),
        (∀ i, i < j → st i < 400) → 400 ≤ st j → j * chunk_size < S →
        (uploadFrom st S 0 0).puts.length = j + 1 ∧
        (uploadFrom st S 0 0).outcome = Except.error Err.transferChunkError) ∧
    (∀ (env : UploadEnv) (o : UploadOutcome),
        upload_disk_image env = some o → o.finalizeCalled = true) := by
  constructor
  · intro S j st hlt hj hjS
    have h := uploadGo_abort st S j hj hlt hjS j 0 (S - 0 * chunk_size)
      (by omega) (by omega) (le_refl _)
    simp only [Nat.zero_mul, Nat.sub_zero] at h
    unfold uploadFrom
    simp only [Nat.sub_zero]
    simpa using h
  · intro env o h
    obtain ⟨pr, fr, h1, h2⟩ := upload_disk_image_some env o h
    have heq := upload_disk_image_eq env pr fr h1 h2
    rw [h] at heq
    injection heq with h3
    rw [h3]

/-- Witness for `c6_abort_and_finalize`: the first conjunct at a one-byte
file whose only chunk gets status 500, the second at a completed run. -/
theorem c6_abort_and_finalize_witness :
    ((∀ i, i < 0 → (fun _ : Nat => 500) i < 400) ∧ 400 ≤ (fun _ : Nat => 500) 0 ∧
      0 * chunk_size < 1 ∧
      (uploadFrom (fun _ : Nat => 500) 1 0 0).puts.length = 0 + 1) ∧
    (upload_disk_image
        { phase0 := ImageTransferPhase.finished_success, initGets := [], size := 0,
          status := fun _ => 200, finGets := [], hasLogicalUnit := false,
          lunOkWithin := true } =
        some ⟨0, [], true, Except.ok true⟩ ∧
      (⟨0, [], true, Except.ok true⟩ : UploadOutcome).finalizeCalled = true) := by
  have hup : upload_disk_image
      { phase0 := ImageTransferPhase.finished_success, initGets := [], size := 0,
        status := fun _ => 200, finGets := [], hasLogicalUnit := false,
        lunOkWithin := true } = some ⟨0, [], true, Except.ok true⟩ := by rfl
  refine ⟨⟨fun i hi => absurd hi (by omega), by norm_num, by simp [chunk_size_eq], ?_⟩,
    hup, c6_abort_and_finalize.2 _ _ hup⟩
  exact (c6_abort_and_finalize.1 1 0 (fun _ => 500) (fun i hi => absurd hi (by omega))
    (by norm_num) (by simp [chunk_size_eq])).1

/-- C7: after finalization, a terminal phase in `{UNKNOWN,
FINISHED_FAILURE, FINALIZING_FAILURE, CANCELLED}` makes the run fail with
the transfer-failed error carrying that phase (in particular `CANCELLED`
is surfaced); for any other terminal phase no transfer-failed error is
raised. -/
theorem c7_transfer_failed_phases (env : UploadEnv) (o : UploadOutcome)
    (q : ImageTransferPhase)
    (ho : upload_disk_image env = some o) (hq : terminalPhase env = some q) :
    (failedPhase q = true → o.result = Except.error (Err.transferFailed q)) ∧
    (failedPhase q = false →
      ∀ p, o.result ≠ Except.error (Err.transferFailed p)) := by
  obtain ⟨pr, fr, h1, h2⟩ := upload_disk_image_some env o ho
  have hq2 : fr.1 = q := terminalPhase_fr env pr fr q h1 h2 hq
  have heq := upload_disk_image_eq env pr fr h1 h2
  rw [ho] at heq
  injection heq with h3
  subst h3
  rw [hq2]
  constructor
  · intro hfail
    simp [hfail]
  · intro hgood p
    simp only [hgood]
    by_cases hl : env.hasLogicalUnit && !env.lunOkWithin
    · simp [hl]
    · simp only [hl, Bool.false_eq_true, if_false]
      cases hout : (uploadFrom env.status env.size 0 0).outcome with
      | error e =>
        have he : e = Err.transferChunkError :=
          uploadGo_error_chunk env.status env.size _ _ _ e (by rw [← hout]; rfl)
        simp [hout, he]
      | ok u => simp [hout]

/-- Witness for `c7_transfer_failed_phases`: a session whose finalize wait
ends in `CANCELLED`. -/
theorem c7_transfer_failed_phases_witness :
    upload_disk_image
        { phase0 := ImageTransferPhase.transferring, initGets := [], size := 0,
          status := fun _ => 200, finGets := [ImageTransferPhase.cancelled],
          hasLogicalUnit := false, lunOkWithin := true } =
      some ⟨0, [], true,
        Except.error (Err.transferFailed ImageTransferPhase.cancelled)⟩ ∧
    terminalPhase
        { phase0 := ImageTransferPhase.transferring, initGets := [], size := 0,
          status := fun _ => 200, finGets := [ImageTransferPhase.cancelled],
          hasLogicalUnit := false, lunOkWithin := true } =
      some ImageTransferPhase.cancelled ∧
    failedPhase ImageTransferPhase.cancelled = true ∧
    (⟨0, [], true,
        Except.error (Err.transferFailed ImageTransferPhase.cancelled)⟩ :
      UploadOutcome).result =
      Except.error (Err.transferFailed ImageTransferPhase.cancelled) := by
  have h1 : upload_disk_image
      { phase0 := ImageTransferPhase.transferring, initGets := [], size := 0,
        status := fun _ => 200, finGets := [ImageTransferPhase.cancelled],
        hasLogicalUnit := false, lunOkWithin := true } =
      some ⟨0, [], true,
        Except.error (Err.transferFailed ImageTransferPhase.cancelled)⟩ := by rfl
  have h2 : terminalPhase
      { phase0 := ImageTransferPhase.transferring, initGets := [], size := 0,
        status := fun _ => 200, finGets := [ImageTransferPhase.cancelled],
        hasLogicalUnit := false, lunOkWithin := true } =
      some ImageTransferPhase.cancelled := by rfl
  exact ⟨h1, h2, rfl, (c7_transfer_failed_phases _ _ _ h1 h2).1 rfl⟩

/-- C10: `upload_disk_image` returns `True` on every run that completes
without raising, so after an upload the driver's
`ret['changed'] = ret['changed'] or uploaded` reports `changed = true`
even when the disk reconciliation itself reported no change. -/
theorem c10_upload_reports_changed (env : UploadEnv) (o : UploadOutcome) (b : Bool)
    (ho : upload_disk_image env = some o) (hb : o.result = Except.ok b) :
    b = true ∧ ∀ prev : Bool, driverChangedAfterUpload prev b = true := by
  obtain ⟨pr, fr, h1, h2⟩ := upload_disk_image_some env o ho
  have heq := upload_disk_image_eq env pr fr h1 h2
  rw [ho] at heq
  injection heq with h3
  subst h3
  simp only at hb
  have hbtrue : b = true := by
    by_cases hf : failedPhase fr.1
    · simp [hf] at hb
    · by_cases hl : env.hasLogicalUnit && !env.lunOkWithin
      · simp [hf, hl] at hb
      · simp only [hf, hl, Bool.false_eq_true, if_false] at hb
        cases hout : (uploadFrom env.status env.size 0 0).outcome with
        | error e => rw [hout] at hb; simp at hb
        | ok u =>
          rw [hout] at hb
          simp at hb
          exact hb
  exact ⟨hbtrue, fun prev => by simp [driverChangedAfterUpload, hbtrue]⟩

/-- Witness for `c10_upload_reports_changed` at a completed run. -/
theorem c10_upload_reports_changed_witness :
    upload_disk_image
        { phase0 := ImageTransferPhase.finished_success, initGets := [], size := 0,
          status := fun _ => 404, finGets := [], hasLogicalUnit := false,
          lunOkWithin := true } =
      some ⟨0, [], true, Except.ok true⟩ ∧
    (⟨0, [], true, Except.ok true⟩ : UploadOutcome).result = Except.ok true ∧
    (true = true ∧ ∀ prev : Bool, driverChangedAfterUpload prev true = true) := by
  have h1 : upload_disk_image
      { phase0 := ImageTransferPhase.finished_success, initGets := [], size := 0,
        status := fun _ => 404, finGets := [], hasLogicalUnit := false,
        lunOkWithin := true } = some ⟨0, [], true, Except.ok true⟩ := by rfl
  exact ⟨h1, rfl, c10_upload_reports_changed _ _ true h1 rfl⟩

/-- C2 (counterexample): with poll interval 1 and caller-supplied timeout
3, a session that stays `INITIALIZING` for 9 polls makes the init-wait
loop perform 10 sleep-and-poll iterations — elapsed time `10 * 1`
exceeding the timeout 3 — and the loop still completes normally rather
than failing with a timeout: the init-wait suspension point is not
bounded by the caller-supplied timeout. -/
theorem c2_init_wait_ignores_timeout :
    initWait ImageTransferPhase.initializing
        (List.replicate 9 ImageTransferPhase.initializing ++
          [ImageTransferPhase.transferring]) =
      some (ImageTransferPhase.transferring, 10) ∧ 3 < 10 * 1 := by
  constructor
  · rfl
  · norm_num

/-- C2 (amended): of the three suspension points, only the LUN-status
wait is bounded by the caller-supplied timeout and fails with the timeout
error when exceeded; the init-wait and finalize-wait loops take no
timeout at all — for every count `k` of consecutive waiting-phase
observations they perform `k + 1` sleep-and-poll iterations and exit only
when the phase leaves the waiting set. -/
theorem c2_poll_loops (k1 k2 : Nat) (p1 p2 : ImageTransferPhase)
    (hp1 : p1 ≠ ImageTransferPhase.initializing)
    (hp2 : finalizeWaitSet p2 = false)
    (env : UploadEnv) (o : UploadOutcome) (q : ImageTransferPhase)
    (ho : upload_disk_image env = some o) (hq : terminalPhase env = some q)
    (hgood : failedPhase q = false)
    (hlun : env.hasLogicalUnit = true) (hok : env.lunOkWithin = false) :
    initWait ImageTransferPhase.initializing
        (List.replicate k1 ImageTransferPhase.initializing ++ [p1]) =
      some (p1, k1 + 1) ∧
    finalizeWait ImageTransferPhase.transferring
        (List.replicate k2 ImageTransferPhase.transferring ++ [p2]) =
      some (p2, k2 + 1) ∧
    o.result = Except.error Err.timeoutExceeded := by
  refine ⟨initWait_replicate k1 p1 hp1, finalizeWait_replicate k2 p2 hp2, ?_⟩
  obtain ⟨pr, fr, h1, h2⟩ := upload_disk_image_some env o ho
  have hq2 : fr.1 = q := terminalPhase_fr env pr fr q h1 h2 hq
  have heq := upload_disk_image_eq env pr fr h1 h2
  rw [ho] at heq
  injection heq with h3
  subst h3
  simp [hq2, hgood, hlun, hok]

/-- Witness for `c2_poll_loops`: two-poll traces for both loops and a run
with a logical unit whose LUN wait times out. -/
theorem c2_poll_loops_witness :
    (ImageTransferPhase.transferring ≠ ImageTransferPhase.initializing ∧
      finalizeWaitSet ImageTransferPhase.finished_success = false ∧
      upload_disk_image
          { phase0 := ImageTransferPhase.transferring, initGets := [], size := 0,
            status := fun _ => 200, finGets := [ImageTransferPhase.finished_success],
            hasLogicalUnit := true, lunOkWithin := false } =
        some ⟨0, [], true, Except.error Err.timeoutExceeded⟩ ∧
      terminalPhase
          { phase0 := ImageTransferPhase.transferring, initGets := [], size := 0,
            status := fun _ => 200, finGets := [ImageTransferPhase.finished_success],
            hasLogicalUnit := true, lunOkWithin := false } =
        some ImageTransferPhase.finished_success ∧
      failedPhase ImageTransferPhase.finished_success = false) ∧
    (initWait ImageTransferPhase.initializing
        (List.replicate 2 ImageTransferPhase.initializing ++
          [ImageTransferPhase.transferring]) =
      some (ImageTransferPhase.transferring, 3) ∧
    finalizeWait ImageTransferPhase.transferring
        (List.replicate 2 ImageTransferPhase.transferring ++
          [ImageTransferPhase.finished_success]) =
      some (ImageTransferPhase.finished_success, 3) ∧
    (⟨0, [], true, Except.error Err.timeoutExceeded⟩ : UploadOutcome).result =
      Except.error Err.timeoutExceeded) := by
  have h1 : upload_disk_image
      { phase0 := ImageTransferPhase.transferring, initGets := [], size := 0,
        status := fun _ => 200, finGets := [ImageTransferPhase.finished_success],
        hasLogicalUnit := true, lunOkWithin := false } =
      some ⟨0, [], true, Except.error Err.timeoutExceeded⟩ := by rfl
  have h2 : terminalPhase
      { phase0 := ImageTransferPhase.transferring, initGets := [], size := 0,
        status := fun _ => 200, finGets := [ImageTransferPhase.finished_success],
        hasLogicalUnit := true, lunOkWithin := false } =
      some ImageTransferPhase.finished_success := by rfl
  exact ⟨⟨by decide, rfl, h1, h2, rfl⟩,
    c2_poll_loops 2 2 ImageTransferPhase.transferring ImageTransferPhase.finished_success
      (by decide) rfl _ _ _ h1 h2 rfl rfl rfl⟩

end OvirtDisks
